import Mathlib

/-!
Verification of the gofsen HTTP framework (github.com/Bakemono-san/gofsen)
against its natural-language specification.

The repository contains two router implementations:

* the published `package gofsen` (single file): routes kept in a slice,
  resolution is a linear scan in registration order, dynamic templates are
  compiled to anchored regular expressions, middleware is run through a
  mutable cursor on the Context (`Next`);
* the `internal/router` package: routes kept in a map
  `method -> path -> handler` (static paths only), middleware is
  function-wrapping (`Middleware = func(HandlerFunc) HandlerFunc`), errors go
  through `utils.GofsenLogger.SendDetailedError`.

Both are embedded below.  Strings are modelled as `List Char` (Go strings are
byte strings; all paths involved are ASCII, so characters are faithful).
Go maps are modelled as insertion-ordered association lists; where Go map
iteration order is observable (the 405 scan in the internal router, JSON
encoding of maps) the model either takes the iteration order as an explicit
parameter or, for `encoding/json`, uses the sorted key order which that
package guarantees for maps.
-/

/-- Strings are lists of characters. -/
abbrev Str := List Char

/-- Conversion from Lean string literals. -/
def str (s : String) : Str := s.data

/-- Predicate `strHasPrefix p s`: `p` is a prefix of `s` (byte-wise, as Go slices
compare). -/
def strHasPrefix : Str → Str → Bool
  | [], _ => true
  | _ :: _, [] => false
  | a :: p, b :: s => a = b && strHasPrefix p s

/-- Association-list lookup, modelling Go map read `m[k]` (with `ok`). -/
def assocLookup {α : Type} (m : List (Str × α)) (k : Str) : Option α :=
  match m with
  | [] => none
  | (k', v) :: rest => if k' = k then some v else assocLookup rest k

/-- Association-list update, modelling Go map write `m[k] = v`: replaces the
value at an existing key, otherwise appends (insertion order). -/
def assocUpdate {α : Type} (m : List (Str × α)) (k : Str) (v : α) :
    List (Str × α) :=
  match m with
  | [] => [(k, v)]
  | (k', v') :: rest =>
    if k' = k then (k, v) :: rest else (k', v') :: assocUpdate rest k v

/-! ## JSON values

A small JSON model, enough for the error payloads of the framework.
`encoding/json` serialises Go structs in field-declaration order and Go maps
in sorted key order; each `obj` below lists its fields in the order the Go
encoder emits them. -/

/-- JSON values. -/
inductive JValue where
  | s (v : Str)
  | n (v : Int)
  | arr (vs : List JValue)
  | obj (fields : List (Str × JValue))
deriving Repr

/-- Field lookup in a JSON object (`none` on non-objects). -/
def JValue.lookup : JValue → Str → Option JValue
  | .obj fields, k => assocLookup fields k
  | _, _ => none

/-! ## PatternCompiler (`package gofsen`, `convertPathToRegex`)

`convertPathToRegex` turns a template with `:name` markers into the anchored
regex `^ lit ([^/]+) lit ([^/]+) ... $` plus the ordered parameter names.
A marker is a `:` followed by a maximal nonempty run of non-`/` characters
(the regex `:([^/]+)` used by the Go code).  The compiled regex is modelled
structurally as an alternation-free sequence of pieces: literal runs and
single `([^/]+)` captures.  Regex metacharacters inside literal parts (and
the resulting possibility of `regexp.Compile` failing) are not modelled:
literal pieces match literally.  None of the templates in the repository
contain metacharacters. -/

/-- One piece of a compiled template: a literal run or a `([^/]+)` capture. -/
inductive Piece where
  | lit (l : Str)
  | capture
deriving Repr, DecidableEq

/-- Take the maximal run of non-`/` characters (the `[^/]+` match of the
marker regex). -/
def takeNonSlash : Str → Str × Str
  | [] => ([], [])
  | c :: rest =>
    if c = '/' then ([], c :: rest)
    else
      let (run, rem) := takeNonSlash rest
      (c :: run, rem)

/-- Scan a template into regex pieces and parameter names: at each `:`
followed by at least one non-`/` character a marker starts; everything else
is literal text.  The `fuel` argument only bounds the recursion (each step
consumes at least one character, so `s.length` steps always suffice); it
makes the definition structurally recursive and hence kernel-computable. -/
def scanTemplateAux : Nat → Str → List Piece × List Str
  | 0, _ => ([], [])
  | _ + 1, [] => ([], [])
  | fuel + 1, c :: rest =>
    if c = ':' ∧ (takeNonSlash rest).1 ≠ [] then
      let (name, rem) := takeNonSlash rest
      let (pieces, params) := scanTemplateAux fuel rem
      (Piece.capture :: pieces, name :: params)
    else
      let (pieces, params) := scanTemplateAux fuel rest
      match pieces with
      | Piece.lit l :: tl => (Piece.lit (c :: l) :: tl, params)
      | _ => (Piece.lit [c] :: pieces, params)

/-- Scan a whole template (enough fuel for every step). -/
def scanTemplate (s : Str) : List Piece × List Str :=
  scanTemplateAux s.length s

/-- Model of `convertPathToRegex` from `package gofsen`: templates without `:` take the
static path (`nil` pattern); otherwise the template is compiled to anchored
pieces and the ordered parameter-name list. -/
def convertPathToRegex (path : Str) : Option (List Piece) × List Str :=
  if path.contains ':' then
    let (pieces, params) := scanTemplate path
    (some pieces, params)
  else
    (none, [])

/-- All decompositions `s = c ++ rem` with `c` a nonempty run of non-`/`
characters, longest `c` first — the candidate matches of a greedy `([^/]+)`. -/
def nonSlashSplits : Str → List (Str × Str)
  | [] => []
  | c :: rest =>
    if c = '/' then []
    else
      (nonSlashSplits rest).map (fun p => (c :: p.1, p.2)) ++ [([c], rest)]

/-- First `some` in a list of options (backtracking alternative choice). -/
def firstSome {α : Type} : List (Option α) → Option α
  | [] => none
  | some a :: _ => some a
  | none :: rest => firstSome rest

/-- Anchored matching of compiled pieces against a path, with the
leftmost-first greedy capture semantics of Go's `regexp` on these
alternation-free patterns: a capture prefers the longest `[^/]+` run and
backtracks on failure.  Returns the captured substrings in order. -/
def matchPieces : List Piece → Str → Option (List Str)
  | [], s => if s = [] then some [] else none
  | Piece.lit l :: rest, s =>
    if strHasPrefix l s then matchPieces rest (s.drop l.length) else none
  | Piece.capture :: rest, s =>
    firstSome ((nonSlashSplits s).map
      (fun p => (matchPieces rest p.2).map (fun caps => p.1 :: caps)))

/-! ## `package gofsen`: Router, Context, middleware chain

Handlers and middleware of the Go package are plain `func(*Context)` values;
for the embedding their observable behaviours are deep-embedded as
`GBehavior`: every behaviour occurring in the repository's handlers and
middleware that the claims mention is representable.  Each middleware value
carries an `id`; execution records the ids of the functions actually invoked,
which makes invocation order observable. -/

/-- A write performed on the ResponseWriter: status code and JSON body. -/
structure GWrite where
  status : Nat
  body : JValue
deriving Repr

/-- Observable behaviour of a gofsen `HandlerFunc`/`MiddlewareFunc`:
`callNext` is a purely observational middleware (like `Logger()`), `recovery`
is the `Recovery()` middleware, `panics` raises a Go panic, `write` writes a
response and returns without calling `Next`. -/
inductive GBehavior where
  | callNext
  | recovery
  | panics (msg : Str)
  | write (w : GWrite)

/-- A gofsen middleware/handler value: an observable id plus a behaviour. -/
structure GMiddleware where
  id : Nat
  behavior : GBehavior

/-- A compiled gofsen route (struct `Route`). -/
structure GRoute where
  method : Str
  path : Str
  handler : GMiddleware
  pattern : Option (List Piece)
  params : List Str

/-- The gofsen `Router`: a slice of routes plus global middleware.  (The
`groups` map only stores `RouteGroup` pointers and is not otherwise read;
it is omitted.) -/
structure GRouter where
  routes : List GRoute
  middlewares : List GMiddleware

/-- A gofsen `RouteGroup`: prefix, collected middleware, and the routes
added so far (standing in for the pointer to the parent router). -/
structure GRouteGroup where
  pfx : Str
  middlewares : List GMiddleware

/-- The `Route` value built by `Router.addRoute`: template compiled by
`convertPathToRegex`. -/
def gMkRoute (method path : Str) (handler : GMiddleware) : GRoute :=
  { method := method, path := path, handler := handler,
    pattern := (convertPathToRegex path).1,
    params := (convertPathToRegex path).2 }

/-- Model of `Router.addRoute`: compile the template and append the route. -/
def gAddRoute (r : GRouter) (method path : Str) (handler : GMiddleware) :
    GRouter :=
  { r with routes := r.routes ++ [gMkRoute method path handler] }

/-- Model of `New()`: empty router. -/
def gNew : GRouter := { routes := [], middlewares := [] }

/-- Model of `Router.Use`: append a global middleware. -/
def gUse (r : GRouter) (mw : GMiddleware) : GRouter :=
  { r with middlewares := r.middlewares ++ [mw] }

/-- Model of `RouteGroup.Use`: append to the group's middleware slice.  (No other
code of `package gofsen` reads this field.) -/
def gGroupUse (g : GRouteGroup) (mw : GMiddleware) : GRouteGroup :=
  { g with middlewares := g.middlewares ++ [mw] }

/-- Model of `RouteGroup.GET` and friends: register `prefix+path` on the parent
router.  The group's middleware slice is not consulted. -/
def gGroupAddRoute (r : GRouter) (g : GRouteGroup) (method path : Str)
    (handler : GMiddleware) : GRouter :=
  gAddRoute r method (g.pfx ++ path) handler

/-- Build the Go-map of extracted parameters: `params[param] = matches[i+1]`
for each parameter name in order (map write semantics, so a duplicated name
keeps the last capture). -/
def buildParams (names : List Str) (caps : List Str) : List (Str × Str) :=
  (names.zip caps).foldl (fun m p => assocUpdate m p.1 p.2) []

/-- Model of `Router.findRoute`: scan the route slice in registration order; a route
with a pattern matches by regex (parameters extracted positionally), a route
without one matches by path equality (empty parameter map). -/
def gFindRoute (routes : List GRoute) (method path : Str) :
    Option (GRoute × List (Str × Str)) :=
  match routes with
  | [] => none
  | route :: rest =>
    if route.method = method then
      match route.pattern with
      | some pieces =>
        match matchPieces pieces path with
        | some caps => some (route, buildParams route.params caps)
        | none => gFindRoute rest method path
      | none =>
        if route.path = path then some (route, [])
        else gFindRoute rest method path
    else gFindRoute rest method path

-- Sanity checks on the pattern compiler and matcher (template `/users/:id`).
example : convertPathToRegex (str "/users/:id") =
    (some [Piece.lit (str "/users/"), Piece.capture], [str "id"]) := by decide
example : matchPieces [Piece.lit (str "/users/"), Piece.capture]
    (str "/users/42") = some [str "42"] := by decide
example : matchPieces [Piece.lit (str "/users/"), Piece.capture]
    (str "/users") = none := by decide

/-! ## `package gofsen`: request dispatch

`ServeHTTP` builds a fresh Context (middleware slice plus a `-1` cursor),
resolves the route, answers 404 directly when nothing matches, and otherwise
appends the final handler to the middleware slice and starts `Next()`.
`Next()` advances the cursor and invokes the next function; execution is
modelled as a recursion over the remaining chain.  `GState` carries the
writes performed, the ids of functions invoked so far, and a pending Go
panic.  `now` stands for `time.Now().Format(time.RFC3339)`. -/

/-- An incoming request (the parts of `*http.Request` the model reads). -/
structure GReq where
  method : Str
  path : Str

/-- Execution state of one request. -/
structure GState where
  writes : List GWrite
  invoked : List Nat
  panicked : Option Str

/-- Model of `Context.Error` (`package gofsen`): status write plus a JSON body from a
Go map, so `encoding/json` emits the keys in sorted order:
`error`, `method`, `path`, `status`, `time`. -/
def gofsenErrorBody (code : Nat) (message : Str) (req : GReq) (now : Str) :
    JValue :=
  JValue.obj [(str "error", JValue.s message),
              (str "method", JValue.s req.method),
              (str "path", JValue.s req.path),
              (str "status", JValue.n code),
              (str "time", JValue.s now)]

/-- Run the middleware chain from the cursor position.  Each function's id is
recorded when it is invoked; `callNext` and `recovery` call `Next()` (the
tail of the chain), `panics` raises, `write` responds and returns.
`recovery` runs `Next()` under `defer`/`recover`: a pending panic from
downstream is consumed and turned into `Context.Error(500, "Internal Server
Error")`. -/
def gExec (req : GReq) (now : Str) : List GMiddleware → GState → GState
  | [], s => s
  | mw :: rest, s =>
    let s := { s with invoked := s.invoked ++ [mw.id] }
    match mw.behavior with
    | GBehavior.callNext => gExec req now rest s
    | GBehavior.panics msg => { s with panicked := some msg }
    | GBehavior.write w => { s with writes := s.writes ++ [w] }
    | GBehavior.recovery =>
      let s' := gExec req now rest s
      match s'.panicked with
      | some _ =>
        { s' with panicked := none,
                  writes := s'.writes ++
                    [{ status := 500,
                       body := gofsenErrorBody 500
                         (str "Internal Server Error") req now }] }
      | none => s'

/-- The body written by `ServeHTTP` when no route matches:
`ctx.Status(404).JSON(map[string]string{"error": "Route not found"})`. -/
def gNotFoundWrite : GWrite :=
  { status := 404,
    body := JValue.obj [(str "error", JValue.s (str "Route not found"))] }

/-- Model of `Router.ServeHTTP` (`package gofsen`): resolve; on miss write the 404
body without running any middleware; on hit run the global middleware chain
with the route handler appended. -/
def gServeHTTP (r : GRouter) (req : GReq) (now : Str) : GState :=
  match gFindRoute r.routes req.method req.path with
  | none => { writes := [gNotFoundWrite], invoked := [], panicked := none }
  | some rp =>
    gExec req now (r.middlewares ++ [rp.1.handler])
      { writes := [], invoked := [], panicked := none }

/-! ## `package gofsen`: CORS middleware

`CORSWithConfig` reads the `Origin` header, walks the configured allow-list
(first hit wins, same truth value as `any`), and sets
`Access-Control-Allow-Origin` to the echoed origin — or `"*"` when no origin
was sent — exactly when some entry is `"*"` or equals the origin.  The
function below computes the value of that single header (`none` = header not
set); the remaining always-set headers and the OPTIONS short-circuit do not
interact with it. -/

/-- Model of `CORSConfig`. -/
structure CORSConfig where
  allowOrigins : List Str
  allowMethods : List Str
  allowHeaders : List Str

/-- The `Access-Control-Allow-Origin` header written by `CORSWithConfig` for
a request carrying `origin` (empty string = no `Origin` header). -/
def corsAllowOriginHeader (config : CORSConfig) (origin : Str) : Option Str :=
  let allowed := config.allowOrigins.any
    (fun allowedOrigin => allowedOrigin = str "*" || allowedOrigin = origin)
  if allowed then
    if origin ≠ [] then some origin else some (str "*")
  else none

/-! ## `internal/utils`: logger, structured errors, suggestions

`GofsenLogger.SendDetailedError` writes `ErrorResponse` (struct fields in
declaration order: `error`, `message` (omitempty), `path`, `method`,
`timestamp`, `code`; `request_id` is never set and omitted), extended with
`details` and masked `headers` only when `EnableDetailedErrors` is set and
the level is at most Debug (`trace` is never set and omitted).  The logger is
obtained through `utils.GetLogger()`; the package default has level Info and
detailed errors enabled.  The model passes the logger explicitly. -/

/-- Model of `utils.LogLevel` (iota order). -/
inductive LogLevel where
  | debug
  | info
  | warn
  | err
deriving DecidableEq

/-- The iota value of a log level. -/
def LogLevel.toNat : LogLevel → Nat
  | .debug => 0
  | .info => 1
  | .warn => 2
  | .err => 3

/-- Model of `utils.GofsenLogger`. -/
structure GofsenLogger where
  level : LogLevel
  enableDetailedErrors : Bool

/-- Model of `utils.defaultLogger` (returned by `GetLogger()`): level Info, detailed
errors enabled. -/
def defaultLogger : GofsenLogger :=
  { level := LogLevel.info, enableDetailedErrors := true }

/-- An incoming request for the internal router: method, path and the
request headers (exact-name lookup stands for Go's canonicalised
`Header.Get`). -/
structure IReq where
  method : Str
  path : Str
  headers : List (Str × Str)

/-- Model of `Header.Get`: empty string when the header is absent. -/
def headerGet (req : IReq) (name : Str) : Str :=
  (assocLookup req.headers name).getD []

/-- Model of `http.StatusText` for the codes the framework uses (the Go function
returns the standard reason phrase, empty for unknown codes). -/
def statusText (code : Nat) : Str :=
  if code = 400 then str "Bad Request"
  else if code = 401 then str "Unauthorized"
  else if code = 403 then str "Forbidden"
  else if code = 404 then str "Not Found"
  else if code = 405 then str "Method Not Allowed"
  else if code = 409 then str "Conflict"
  else if code = 418 then str "I'm a teapot"
  else if code = 429 then str "Too Many Requests"
  else if code = 500 then str "Internal Server Error"
  else []

/-- Model of `utils.maskAuthHeader`: keep at most the first 10 characters, then the
fixed `***` marker. -/
def maskAuthHeader (auth : Str) : Str :=
  if auth = [] then []
  else if auth.length ≤ 10 then str "***"
  else auth.take 10 ++ str "***"

/-- The masked header subset attached in detailed-diagnostics mode
(`encoding/json` emits the Go map in sorted key order). -/
def detailedHeaders (req : IReq) : JValue :=
  JValue.obj
    [(str "Authorization",
      JValue.s (maskAuthHeader (headerGet req (str "Authorization")))),
     (str "Content-Type", JValue.s (headerGet req (str "Content-Type"))),
     (str "Origin", JValue.s (headerGet req (str "Origin"))),
     (str "User-Agent", JValue.s (headerGet req (str "User-Agent")))]

/-- The serialised `ErrorResponse` fields, in struct declaration order;
`message` carries `omitempty`, and `request_id` (always unset here) is
omitted. -/
def errorRespFields (req : IReq) (now : Str) (code : Nat) (message : Str) :
    List (Str × JValue) :=
  [(str "error", JValue.s (statusText code))] ++
  (if message ≠ [] then [(str "message", JValue.s message)] else []) ++
  [(str "path", JValue.s req.path),
   (str "method", JValue.s req.method),
   (str "timestamp", JValue.s now),
   (str "code", JValue.n code)]

/-- Model of `GofsenLogger.SendDetailedError`: the write it performs.  In
detailed-diagnostics mode (`EnableDetailedErrors` and level at most Debug)
the body is the `DetailedErrorResponse`: the embedded `ErrorResponse` fields
followed by `details` and the masked `headers` (`trace` stays empty and is
omitted); otherwise just the `ErrorResponse`. -/
def sendDetailedError (gl : GofsenLogger) (req : IReq) (now : Str)
    (code : Nat) (message : Str) (details : JValue) : GWrite :=
  if gl.enableDetailedErrors && decide (gl.level.toNat ≤ LogLevel.debug.toNat)
  then
    { status := code,
      body := JValue.obj (errorRespFields req now code message ++
        [(str "details", details), (str "headers", detailedHeaders req)]) }
  else
    { status := code, body := JValue.obj (errorRespFields req now code message) }

/-- Model of `utils.SuggestSimilarRoutes`: collect the available routes that share
their first character with the requested path, or whose last three
characters agree with its last three (both only when long enough), then cut
the collection down to three entries. -/
def suggestSimilarRoutes (requestedPath : Str) (availableRoutes : List Str) :
    List Str :=
  let suggestions := availableRoutes.filter (fun route =>
    route.length > 0 && requestedPath.length > 0 &&
      (route.take 1 == requestedPath.take 1 ||
       (route.length > 3 && requestedPath.length > 3 &&
        route.drop (route.length - 3) ==
          requestedPath.drop (requestedPath.length - 3))))
  if suggestions.length > 3 then suggestions.take 3 else suggestions

/-! ## `internal/router`: wrapper middleware, groups, dispatch

`types.Middleware = func(HandlerFunc) HandlerFunc`.  Handlers are modelled
as state transformers over the per-request state; the state again records
writes, a trace of invoked functions and a pending panic.  The model
functions below only ever inspect the panic flag in the Recovery middleware,
matching Go's unwinding (no other middleware in the repository runs code
after `next` that touches the response). -/

/-- Per-request state for the internal router. -/
structure IState where
  writes : List GWrite
  trace : List Str
  panicked : Option Str

/-- Model of `types.HandlerFunc`. -/
def IHandler : Type := IState → IState

/-- Model of `types.Middleware`. -/
def IMiddleware : Type := IHandler → IHandler

/-- The wrapping loop `for i := len(mws)-1; i >= 0; i-- { h = mws[i](h) }`:
after it, `mws[0]` is the outermost wrapper, so execution order is
registration order. -/
def wrapMws (mws : List IMiddleware) (h : IHandler) : IHandler :=
  mws.foldr (fun mw acc => mw acc) h

/-- The internal `router.Router`: a map `method -> path -> handler` plus the
global middleware slice.  (`NewRouter()` additionally pre-registers health,
test and demo routes; theorems start from explicitly constructed tables.) -/
structure IRouter where
  routes : List (Str × List (Str × IHandler))
  middlewares : List IMiddleware

/-- Model of `Router.Handle`: `routes[method][path] = handler` (creating the inner
map when absent). -/
def iHandle (r : IRouter) (method path : Str) (handler : IHandler) : IRouter :=
  let inner := (assocLookup r.routes method).getD []
  { r with routes := assocUpdate r.routes method (assocUpdate inner path handler) }

/-- Model of `Router.Use`: append global middleware. -/
def iUse (r : IRouter) (mws : List IMiddleware) : IRouter :=
  { r with middlewares := r.middlewares ++ mws }

/-- A `router.RouteGroup`: prefix and collected middleware. -/
structure IGroup where
  pfx : Str
  middlewares : List IMiddleware

/-- Model of `RouteGroup.Handle`: wrap the handler in the group's middleware (inner
loop, reverse order, so the group's first middleware is outermost among
them) and register `prefix+path` on the parent. -/
def iGroupHandle (r : IRouter) (g : IGroup) (method path : Str)
    (handler : IHandler) : IRouter :=
  iHandle r method (g.pfx ++ path) (wrapMws g.middlewares handler)

/-- The fresh per-request state. -/
def iInitState : IState := { writes := [], trace := [], panicked := none }

/-- The nested lookup `r.routes[method][path]` performed by `ServeHTTP`
(with both `ok` checks). -/
def iResolve (r : IRouter) (method path : Str) : Option IHandler :=
  match assocLookup r.routes method with
  | some pm => assocLookup pm path
  | none => none

/-- The methods under which the requested path is registered, in the given
map-iteration order `morder` (Go map iteration order is unspecified; any
permutation of the keys of `routes` is a possible order). -/
def allowedMethodsFor (routes : List (Str × List (Str × IHandler)))
    (path : Str) (morder : List Str) : List Str :=
  morder.filter (fun m =>
    match assocLookup routes m with
    | some pm => (assocLookup pm path).isSome
    | none => false)

/-- Model of `router.Router.ServeHTTP`: on a hit, wrap the handler in the global
middleware and run it; otherwise answer 405 when the path exists under some
other method (details: the allowed methods in map-iteration order and a
suggestion naming the first of them), and 404 with route suggestions when it
does not.  `morder` is the iteration order over the method keys, `porder m`
the iteration order over the path keys of method `m`'s inner map. -/
def iServeHTTP (gl : GofsenLogger) (morder : List Str)
    (porder : Str → List Str) (r : IRouter) (req : IReq) (now : Str) :
    IState :=
  match iResolve r req.method req.path with
  | some handler => wrapMws r.middlewares handler iInitState
  | none =>
    let allowedMethods := allowedMethodsFor r.routes req.path morder
    match allowedMethods with
    | m0 :: _ =>
      { iInitState with writes :=
          [sendDetailedError gl req now 405
            (str "Méthode HTTP non autorisée pour cette route")
            (JValue.obj
              [(str "allowed_methods",
                JValue.arr (allowedMethods.map JValue.s)),
               (str "suggestion",
                JValue.s (str "Essayez avec: " ++ m0))])] }
    | [] =>
      let availableRoutes := morder.flatMap porder
      { iInitState with writes :=
          [sendDetailedError gl req now 404
            (str "Route non trouvée")
            (JValue.obj
              [(str "available_routes",
                JValue.arr (availableRoutes.map JValue.s)),
               (str "suggestions",
                JValue.arr
                  ((suggestSimilarRoutes req.path availableRoutes).map
                    JValue.s)),
               (str "tip",
                JValue.s (str "Vérifiez l'URL et la méthode HTTP"))])] }

/-- Model of `middlewares.RecoveryMiddleware`: run `next` under a recover guard; a
panic is consumed and reported through `SendDetailedError(500, ...)` with
`panic_message`, `stack_trace` and `recovery_note` details (sorted key
order).  `stack` stands for `string(debug.Stack())`, `gl` for the logger
`utils.GetLogger()` returns. -/
def recoveryMiddleware (gl : GofsenLogger) (req : IReq) (now stack : Str) :
    IMiddleware :=
  fun next s =>
    let s' := next s
    match s'.panicked with
    | some msg =>
      { s' with panicked := none,
                writes := s'.writes ++
                  [sendDetailedError gl req now 500
                    (str "Erreur interne du serveur")
                    (JValue.obj
                      [(str "panic_message", JValue.s msg),
                       (str "recovery_note",
                        JValue.s (str "L'application a récupéré d'une erreur critique")),
                       (str "stack_trace", JValue.s stack)])] }
    | none => s'

/-! Model instrumentation: handlers and middleware whose only observable
effect is recording their own invocation, used to observe execution order
(the claims quantify over middleware that behaves observationally). -/

/-- A tracing middleware: record the label, then continue with `next`. -/
def traceMw (label : Str) : IMiddleware :=
  fun next s => next { s with trace := s.trace ++ [label] }

/-- A tracing terminal handler. -/
def traceHandler (label : Str) : IHandler :=
  fun s => { s with trace := s.trace ++ [label] }

/-- A handler that panics with `msg` (before writing anything). -/
def panicHandler (msg : Str) : IHandler :=
  fun s => { s with panicked := some msg }

/-! ## Helper lemmas -/

/-- Looking up the key just written returns the written value. -/
theorem assocLookup_update_self {α : Type} (m : List (Str × α)) (k : Str)
    (v : α) : assocLookup (assocUpdate m k v) k = some v := by
  induction m with
  | nil => simp [assocUpdate, assocLookup]
  | cons a rest ih =>
    rw [assocUpdate]
    by_cases h : a.1 = k
    · simp [h, assocLookup]
    · simp only [h, if_false, assocLookup, ih]

/-- A successful association lookup means the key is present. -/
theorem assocLookup_isSome_of_mem_keys {α : Type} (l : List (Str × α))
    (k : Str) (hk : k ∈ l.map Prod.fst) :
    (assocLookup l k).isSome = true := by
  induction l with
  | nil => simp at hk
  | cons a rest ih =>
    rw [assocLookup]
    by_cases h : a.1 = k
    · simp [h]
    · simp only [h, if_false]
      apply ih
      simp only [List.map_cons, List.mem_cons] at hk
      rcases hk with hk | hk
      · exact absurd hk.symm h
      · exact hk

/-- A successful association lookup only finds present keys. -/
theorem assocLookup_mem_keys_of_isSome {α : Type} (l : List (Str × α))
    (k : Str) (hk : (assocLookup l k).isSome = true) :
    k ∈ l.map Prod.fst := by
  induction l with
  | nil => simp [assocLookup] at hk
  | cons a rest ih =>
    rw [assocLookup] at hk
    by_cases h : a.1 = k
    · rw [List.map_cons, h]
      exact List.mem_cons_self k _
    · simp only [h, if_false] at hk
      rw [List.map_cons]
      exact List.mem_cons_of_mem _ (ih hk)

/-- Routes that individually fail to resolve are skipped by the scan. -/
theorem gFindRoute_append_none (pre rest : List GRoute) (m p : Str)
    (hpre : ∀ route ∈ pre, gFindRoute [route] m p = none) :
    gFindRoute (pre ++ rest) m p = gFindRoute rest m p := by
  induction pre with
  | nil => rfl
  | cons a pre ih =>
    have ha := hpre a (List.mem_cons_self a pre)
    have htl : ∀ route ∈ pre, gFindRoute [route] m p = none :=
      fun r hr => hpre r (List.mem_cons_of_mem a hr)
    rw [List.cons_append, gFindRoute]
    rw [gFindRoute] at ha
    by_cases hm : a.method = m
    · simp only [hm, if_true] at ha ⊢
      match hpat : a.pattern with
      | some pieces =>
        match hmat : matchPieces pieces p with
        | some caps => simp [hpat, hmat] at ha
        | none => simp only [hpat, hmat]; exact ih htl
      | none =>
        by_cases hp : a.path = p
        · simp [hpat, hp] at ha
        · simp only [hpat, hp, if_false]; exact ih htl
    · simp only [hm, if_false]
      exact ih htl

/-- Running a block of tracing middleware appends its labels to the trace and
hands control to the wrapped handler. -/
theorem wrapMws_traceMw (ls : List Str) (h : IHandler) (s : IState) :
    wrapMws (ls.map traceMw) h s = h { s with trace := s.trace ++ ls } := by
  induction ls generalizing s with
  | nil => simp [wrapMws]
  | cons l ls ih =>
    show traceMw l (wrapMws (ls.map traceMw) h) s = _
    rw [traceMw, ih]
    simp

/-- Wrapping distributes over concatenation of middleware slices. -/
theorem wrapMws_append (a b : List IMiddleware) (h : IHandler) :
    wrapMws (a ++ b) h = wrapMws a (wrapMws b h) :=
  List.foldr_append _ _ _ _

/-- Resolving right after `Router.Handle` (internal router) finds the handler
just stored. -/
theorem iResolve_iHandle_self (r : IRouter) (m p : Str) (h : IHandler) :
    iResolve (iHandle r m p h) m p = some h := by
  simp [iResolve, iHandle, assocLookup_update_self]

/-! ## Claims -/

/-- C4: in `package gofsen`, dynamic matching is whole-path anchored with
positional single-segment parameter extraction: with `/users/:id` registered
under GET, `GET /users/42` resolves to that route with `params = {id: 42}`,
while `GET /users` matches nothing, so `ServeHTTP` writes the 404
route-not-found response. -/
theorem gofsen_dynamic_template_anchored (h : GMiddleware) (now : Str) :
    ((gFindRoute (gAddRoute gNew (str "GET") (str "/users/:id") h).routes
        (str "GET") (str "/users/42")).map
      (fun rp => (rp.1.handler.id, rp.2)) =
        some (h.id, [(str "id", str "42")])) ∧
    gFindRoute (gAddRoute gNew (str "GET") (str "/users/:id") h).routes
      (str "GET") (str "/users") = none ∧
    gServeHTTP (gAddRoute gNew (str "GET") (str "/users/:id") h)
      { method := str "GET", path := str "/users" } now =
      { writes := [gNotFoundWrite], invoked := [], panicked := none } :=
  ⟨rfl, rfl, rfl⟩

/-- C10: in the gofsen `ServeHTTP`, route resolution happens before the
middleware chain starts: whenever resolution fails, the 404 body is the only
write and no middleware at all is invoked. -/
theorem gofsen_resolution_before_middleware (r : GRouter) (req : GReq)
    (now : Str)
    (hmiss : gFindRoute r.routes req.method req.path = none) :
    gServeHTTP r req now =
      { writes := [gNotFoundWrite], invoked := [], panicked := none } := by
  unfold gServeHTTP
  rw [hmiss]

/-- Witness for C10: a router with Logger-style and Recovery middleware
installed and one route; a request for an unregistered path gets the 404
write and an empty invocation trace. -/
theorem gofsen_resolution_before_middleware_witness :
    (gFindRoute (GRouter.mk [gMkRoute (str "GET") (str "/a")
        ⟨7, GBehavior.callNext⟩]
        [⟨1, GBehavior.callNext⟩, ⟨2, GBehavior.recovery⟩]).routes
      (str "GET") (str "/nope") = none) ∧
    gServeHTTP (GRouter.mk [gMkRoute (str "GET") (str "/a")
        ⟨7, GBehavior.callNext⟩]
        [⟨1, GBehavior.callNext⟩, ⟨2, GBehavior.recovery⟩])
      { method := str "GET", path := str "/nope" } [] =
      { writes := [gNotFoundWrite], invoked := [], panicked := none } :=
  ⟨rfl, gofsen_resolution_before_middleware _ _ _ rfl⟩

/-- C1 counterexample: register dynamic `GET /users/:id` (handler id 1)
first, then static `GET /users/new` (handler id 2).  Resolving
`GET /users/new` returns the dynamic route with `params = {id: new}` — not
the static route with empty parameters the claim promises. -/
theorem gofsen_static_precedence_counterexample :
    ((gFindRoute [gMkRoute (str "GET") (str "/users/:id")
          ⟨1, GBehavior.callNext⟩,
        gMkRoute (str "GET") (str "/users/new") ⟨2, GBehavior.callNext⟩]
        (str "GET") (str "/users/new")).map
      (fun rp => (rp.1.handler.id, rp.2)) =
        some (1, [(str "id", str "new")])) ∧
    ((gFindRoute [gMkRoute (str "GET") (str "/users/:id")
          ⟨1, GBehavior.callNext⟩,
        gMkRoute (str "GET") (str "/users/new") ⟨2, GBehavior.callNext⟩]
        (str "GET") (str "/users/new")).map
      (fun rp => (rp.1.handler.id, rp.2)) ≠
        some (2, [])) :=
  ⟨rfl, by decide⟩

/-- C1 amended: `findRoute` scans routes in registration order and returns
the first match, so a static (parameter-free) route registered for
`(method, path)` resolves to that route with an empty parameter map provided
no earlier-registered route matches `(method, path)`. -/
theorem gofsen_static_route_resolution (pre post : List GRoute) (m p : Str)
    (h : GMiddleware) (hstatic : p.contains ':' = false)
    (hpre : ∀ route ∈ pre, gFindRoute [route] m p = none) :
    gFindRoute (pre ++ gMkRoute m p h :: post) m p =
      some (gMkRoute m p h, []) := by
  rw [gFindRoute_append_none pre _ m p hpre, gFindRoute]
  have hmem : ':' ∉ p := by simpa using hstatic
  simp [gMkRoute, convertPathToRegex, hmem]

/-- Witness for the amended C1: a non-matching dynamic route registered
first does not block the static route `/users/new`. -/
theorem gofsen_static_route_resolution_witness :
    ((str "/users/new").contains ':' = false) ∧
    (∀ route ∈ [gMkRoute (str "GET") (str "/admin/:id")
        ⟨1, GBehavior.callNext⟩],
      gFindRoute [route] (str "GET") (str "/users/new") = none) ∧
    gFindRoute ([gMkRoute (str "GET") (str "/admin/:id")
        ⟨1, GBehavior.callNext⟩] ++
        gMkRoute (str "GET") (str "/users/new") ⟨2, GBehavior.callNext⟩ :: [])
      (str "GET") (str "/users/new") =
      some (gMkRoute (str "GET") (str "/users/new")
        ⟨2, GBehavior.callNext⟩, []) := by
  have hpre : ∀ route ∈ [gMkRoute (str "GET") (str "/admin/:id")
      ⟨1, GBehavior.callNext⟩],
      gFindRoute [route] (str "GET") (str "/users/new") = none := by
    intro route hr
    rw [List.mem_singleton] at hr
    subst hr
    rfl
  exact ⟨rfl, hpre,
    gofsen_static_route_resolution _ _ _ _ _ rfl hpre⟩

/-- C7 counterexample: in `package gofsen`, registering `GET /a` twice
(handler ids 1 then 2) and resolving `GET /a` returns the FIRST handler, not
the second one the claim promises. -/
theorem gofsen_duplicate_registration_counterexample :
    ((gFindRoute [gMkRoute (str "GET") (str "/a") ⟨1, GBehavior.callNext⟩,
        gMkRoute (str "GET") (str "/a") ⟨2, GBehavior.callNext⟩]
        (str "GET") (str "/a")).map (fun rp => rp.1.handler.id) = some 1) ∧
    ((gFindRoute [gMkRoute (str "GET") (str "/a") ⟨1, GBehavior.callNext⟩,
        gMkRoute (str "GET") (str "/a") ⟨2, GBehavior.callNext⟩]
        (str "GET") (str "/a")).map (fun rp => rp.1.handler.id) ≠ some 2) :=
  ⟨rfl, by decide⟩

/-- C7 amended: re-registration behaviour differs between the two routers.
In the internal map-based router the second registration replaces the first,
and resolution afterwards yields the second handler.  In `package gofsen`
the duplicate is appended to the route slice and resolution is first-match,
so the duplicate never affects any request: resolution over both
registrations equals resolution over the first alone. -/
theorem duplicate_registration_behaviour (r0 : IRouter) (m p : Str)
    (h1 h2 : IHandler) (mg pg qm q : Str) (g1 g2 : GMiddleware) :
    iResolve (iHandle (iHandle r0 m p h1) m p h2) m p = some h2 ∧
    gFindRoute [gMkRoute mg pg g1, gMkRoute mg pg g2] qm q =
      gFindRoute [gMkRoute mg pg g1] qm q := by
  refine ⟨iResolve_iHandle_self _ _ _ _, ?_⟩
  simp only [gFindRoute]
  by_cases hm : mg = qm
  · simp only [gMkRoute, hm, if_true]
    match hpat : (convertPathToRegex pg).1 with
    | some pieces =>
      match hmat : matchPieces pieces q with
      | some caps => simp [hmat]
      | none => simp [hmat]
    | none =>
      by_cases hq : pg = q
      · simp [hq]
      · simp [hq]
  · simp [gMkRoute, hm]

/-- C2: middleware composition order.  First part (internal router): for a
route registered through a group, dispatch runs all global middleware in
registration order, then the group's middleware in the group's registration
order, then the handler — the trace is `gs ++ cs ++ [hl]`.  Second part
(`package gofsen`, the code bug): with global middleware ids `[1, 2]`, a
group middleware id `3` added by `RouteGroup.Use`, and handler id `0`, a
request to the group route invokes exactly `[1, 2, 0]` — the group
middleware is never invoked, because no code of the package reads the slice
`RouteGroup.Use` appends to. -/
theorem middleware_order_global_then_group (gs cs : List Str) (hl : Str)
    (gpre suffix m now : Str) (hdrs : List (Str × Str))
    (gl : GofsenLogger) (morder : List Str) (porder : Str → List Str) :
    (iServeHTTP gl morder porder
        (iGroupHandle { routes := [], middlewares := gs.map traceMw }
          { pfx := gpre, middlewares := cs.map traceMw }
          m suffix (traceHandler hl))
        { method := m, path := gpre ++ suffix, headers := hdrs } now =
      { writes := [], trace := gs ++ cs ++ [hl], panicked := none }) ∧
    ((gServeHTTP
        (gGroupAddRoute (gUse (gUse gNew ⟨1, GBehavior.callNext⟩)
            ⟨2, GBehavior.callNext⟩)
          (gGroupUse { pfx := str "/g", middlewares := [] }
            ⟨3, GBehavior.callNext⟩)
          (str "GET") (str "/x") ⟨0, GBehavior.callNext⟩)
        { method := str "GET", path := str "/g/x" } []).invoked = [1, 2, 0] ∧
      3 ∉ (gServeHTTP
        (gGroupAddRoute (gUse (gUse gNew ⟨1, GBehavior.callNext⟩)
            ⟨2, GBehavior.callNext⟩)
          (gGroupUse { pfx := str "/g", middlewares := [] }
            ⟨3, GBehavior.callNext⟩)
          (str "GET") (str "/x") ⟨0, GBehavior.callNext⟩)
        { method := str "GET", path := str "/g/x" } []).invoked) := by
  refine ⟨?_, rfl, by decide⟩
  show iServeHTTP gl morder porder
      (iHandle { routes := [], middlewares := gs.map traceMw } m
        (gpre ++ suffix) (wrapMws (cs.map traceMw) (traceHandler hl)))
      { method := m, path := gpre ++ suffix, headers := hdrs } now = _
  unfold iServeHTTP
  rw [iResolve_iHandle_self]
  show wrapMws (gs.map traceMw)
      (wrapMws (cs.map traceMw) (traceHandler hl)) iInitState = _
  rw [wrapMws_traceMw, wrapMws_traceMw, traceHandler]
  simp [iInitState]

/-- Eligibility as the specification words it: the route shares its first
character with the requested path, or both strings have length > 3 and their
last 3 characters are equal. -/
def eligibleSpec (requestedPath route : Str) : Bool :=
  (match requestedPath, route with
   | q :: _, r :: _ => r == q
   | _, _ => false) ||
  (decide (route.length > 3) && decide (requestedPath.length > 3) &&
   route.drop (route.length - 3) == requestedPath.drop (requestedPath.length - 3))

/-- C8: `SuggestSimilarRoutes` returns exactly the first three entries of the
known-paths list that satisfy the spec's eligibility predicate (first
character shared, or both lengths > 3 with equal last-3 suffix), and in
particular never more than three entries. -/
theorem suggest_similar_routes_spec (requestedPath : Str)
    (availableRoutes : List Str) :
    suggestSimilarRoutes requestedPath availableRoutes =
      (availableRoutes.filter
        (fun route => eligibleSpec requestedPath route)).take 3 ∧
    (suggestSimilarRoutes requestedPath availableRoutes).length ≤ 3 := by
  have hfil : availableRoutes.filter (fun route =>
      route.length > 0 && requestedPath.length > 0 &&
        (route.take 1 == requestedPath.take 1 ||
         (route.length > 3 && requestedPath.length > 3 &&
          route.drop (route.length - 3) ==
            requestedPath.drop (requestedPath.length - 3)))) =
      availableRoutes.filter (fun route => eligibleSpec requestedPath route) := by
    apply List.filter_congr
    intro route _
    cases requestedPath with
    | nil => cases route <;> simp [eligibleSpec]
    | cons q qs =>
      cases route with
      | nil => simp [eligibleSpec]
      | cons r rs => simp [eligibleSpec, List.take]
  have hmain : suggestSimilarRoutes requestedPath availableRoutes =
      (availableRoutes.filter
        (fun route => eligibleSpec requestedPath route)).take 3 := by
    unfold suggestSimilarRoutes
    rw [hfil]
    by_cases hlen : (availableRoutes.filter
        (fun route => eligibleSpec requestedPath route)).length > 3
    · simp [hlen]
    · simp only [hlen, if_false]
      exact (List.take_of_length_le (by omega)).symm
  refine ⟨hmain, ?_⟩
  rw [hmain]
  simp [List.length_take]

/-- C9: the `Access-Control-Allow-Origin` header set by `CORSWithConfig`.
With an `Origin` header present it echoes the origin exactly when the
allow-list contains `"*"` or that origin; it is `"*"` when the allow-list is
exactly the wildcard and no origin was sent; it is never set when neither
`"*"` nor the request origin is in the allow-list; and whenever it is set,
the allow-list did contain `"*"` or the origin. -/
theorem cors_allow_origin_spec (config : CORSConfig) (origin : Str) :
    (origin ≠ [] →
      (str "*" ∈ config.allowOrigins ∨ origin ∈ config.allowOrigins) →
      corsAllowOriginHeader config origin = some origin) ∧
    (str "*" ∉ config.allowOrigins → origin ∉ config.allowOrigins →
      corsAllowOriginHeader config origin = none) ∧
    (config.allowOrigins = [str "*"] → origin = [] →
      corsAllowOriginHeader config origin = some (str "*")) ∧
    (∀ v, corsAllowOriginHeader config origin = some v →
      str "*" ∈ config.allowOrigins ∨ origin ∈ config.allowOrigins) := by
  refine ⟨?_, ?_, ?_, ?_⟩
  · intro hne hmem
    have hall : config.allowOrigins.any
        (fun a => a = str "*" || a = origin) = true := by
      rw [List.any_eq_true]
      rcases hmem with hm | hm
      · exact ⟨str "*", hm, by simp⟩
      · exact ⟨origin, hm, by simp⟩
    simp [corsAllowOriginHeader, hall, hne]
  · intro hw ho
    have hall : config.allowOrigins.any
        (fun a => a = str "*" || a = origin) = false := by
      rw [List.any_eq_false]
      intro a ha
      simp only [Bool.or_eq_true, decide_eq_true_eq, not_or]
      constructor
      · intro h; exact hw (h ▸ ha)
      · intro h; exact ho (h ▸ ha)
    simp [corsAllowOriginHeader, hall]
  · intro hcfg hor
    subst hor
    simp [corsAllowOriginHeader, hcfg]
  · intro v hv
    by_cases hall : config.allowOrigins.any
        (fun a => a = str "*" || a = origin) = true
    · rcases List.any_eq_true.mp hall with ⟨a, ha, hpa⟩
      simp only [Bool.or_eq_true, decide_eq_true_eq] at hpa
      rcases hpa with h | h
      · exact Or.inl (h ▸ ha)
      · exact Or.inr (h ▸ ha)
    · rw [corsAllowOriginHeader] at hv
      simp only [Bool.not_eq_true] at hall
      rw [hall] at hv
      simp at hv

/-- Witness for C9: allow-list `["https://a.com"]`; a request with
`Origin: https://a.com` gets the echoed origin, a request with
`Origin: https://b.com` gets no header. -/
theorem cors_allow_origin_spec_witness :
    (corsAllowOriginHeader ⟨[str "https://a.com"], [], []⟩
      (str "https://a.com") = some (str "https://a.com")) ∧
    (corsAllowOriginHeader ⟨[str "https://a.com"], [], []⟩
      (str "https://b.com") = none) :=
  ⟨(cors_allow_origin_spec ⟨[str "https://a.com"], [], []⟩
      (str "https://a.com")).1 (by decide) (Or.inr (by decide)),
   ((cors_allow_origin_spec ⟨[str "https://a.com"], [], []⟩
      (str "https://b.com")).2.1) (by decide) (by decide)⟩

/-- A lookup for a key that is none of the six `ErrorResponse` field names
passes through the serialised `ErrorResponse` prefix. -/
theorem assocLookup_errorRespFields_append (req : IReq) (now : Str)
    (code : Nat) (msg : Str) (rest : List (Str × JValue)) (k : Str)
    (h1 : ¬ (str "error" = k)) (h2 : ¬ (str "message" = k))
    (h3 : ¬ (str "path" = k)) (h4 : ¬ (str "method" = k))
    (h5 : ¬ (str "timestamp" = k)) (h6 : ¬ (str "code" = k)) :
    assocLookup (errorRespFields req now code msg ++ rest) k =
      assocLookup rest k := by
  by_cases hmsg : msg = [] <;>
    simp [errorRespFields, hmsg, assocLookup, h1, h2, h3, h4, h5, h6]

/-- A logger in detailed-diagnostics mode: level Debug, detailed errors
enabled (the package default only differs in the level). -/
def debugLogger : GofsenLogger :=
  { level := LogLevel.debug, enableDetailedErrors := true }

/-- C3 counterexample.  First input: `/health` registered only under GET and
a POST request, served with the stock logger configuration (`GetLogger()`
returns level Info): the single write has status 405 but its body has NO
`details` field at all, so `details.allowed_methods == ["GET"]` fails.
Second input: two methods registered for `/x`, a DELETE request, logger in
debug mode, and `["PUT", "GET"]` as the (legal) map-iteration order: the
body now has `details.allowed_methods`, but it lists `["PUT", "GET"]` — a
permutation of the registered key set, not the sorted set. -/
theorem method_not_allowed_counterexample :
    ((iServeHTTP defaultLogger [str "GET"] (fun _ => [])
        (iHandle { routes := [], middlewares := [] } (str "GET")
          (str "/health") (traceHandler (str "h")))
        { method := str "POST", path := str "/health", headers := [] }
        (str "T")).writes.map
      (fun w => (w.status, (w.body.lookup (str "details")).isSome)) =
      [(405, false)]) ∧
    ((iServeHTTP debugLogger [str "PUT", str "GET"] (fun _ => [])
        (iHandle (iHandle { routes := [], middlewares := [] } (str "GET")
            (str "/x") (traceHandler (str "h")))
          (str "PUT") (str "/x") (traceHandler (str "h2")))
        { method := str "DELETE", path := str "/x", headers := [] }
        (str "T")).writes.map
      (fun w => (w.status,
        (w.body.lookup (str "details")).bind
          (fun d => d.lookup (str "allowed_methods")))) =
      [(405, some (JValue.arr [JValue.s (str "PUT"),
        JValue.s (str "GET")]))]) ∧
    ([str "PUT", str "GET"] ≠ [str "GET", str "PUT"]) ∧
    ([str "PUT", str "GET"]).Perm
      ((iHandle (iHandle { routes := [], middlewares := [] } (str "GET")
          (str "/x") (traceHandler (str "h")))
        (str "PUT") (str "/x") (traceHandler (str "h2"))).routes.map
        Prod.fst) :=
  ⟨rfl, rfl, by decide, List.Perm.swap _ _ _⟩

/-- C3 amended: when the path is registered under other methods only, the
internal `ServeHTTP` answers with a single 405 write; with the logger in
detailed-diagnostics mode its `details.allowed_methods` lists exactly the
methods under which the path resolves — in the (unspecified) map-iteration
order, not necessarily sorted. -/
theorem method_not_allowed_details (gl : GofsenLogger) (morder : List Str)
    (porder : Str → List Str) (r : IRouter) (req : IReq) (now : Str)
    (hdet : gl.enableDetailedErrors = true)
    (hdbg : gl.level = LogLevel.debug)
    (hmiss : iResolve r req.method req.path = none)
    (hperm : morder.Perm (r.routes.map Prod.fst))
    (hne : allowedMethodsFor r.routes req.path morder ≠ []) :
    ((iServeHTTP gl morder porder r req now).writes.map
      (fun w => (w.status,
        (w.body.lookup (str "details")).bind
          (fun d => d.lookup (str "allowed_methods")))) =
      [(405, some (JValue.arr
        ((allowedMethodsFor r.routes req.path morder).map JValue.s)))]) ∧
    (∀ meth, meth ∈ allowedMethodsFor r.routes req.path morder ↔
      (iResolve r meth req.path).isSome = true) := by
  have hpred : ∀ meth, (match assocLookup r.routes meth with
      | some pm => (assocLookup pm req.path).isSome
      | none => false) = (iResolve r meth req.path).isSome := by
    intro meth
    cases h : assocLookup r.routes meth <;> simp [iResolve, h]
  constructor
  · unfold iServeHTTP
    rw [hmiss]
    cases heq : allowedMethodsFor r.routes req.path morder with
    | nil => exact absurd heq hne
    | cons m0 tl =>
      simp only [heq]
      unfold sendDetailedError
      rw [if_pos (by rw [hdet, hdbg]; rfl)]
      simp only [List.map_cons, List.map_nil, JValue.lookup]
      rw [assocLookup_errorRespFields_append _ _ _ _ _ _ (by decide)
        (by decide) (by decide) (by decide) (by decide) (by decide)]
      rw [assocLookup, if_pos rfl]
      rfl
  · intro meth
    rw [allowedMethodsFor, List.mem_filter]
    constructor
    · intro ⟨_, hmem⟩
      rw [hpred] at hmem
      exact hmem
    · intro hsome
      refine ⟨?_, by rw [hpred]; exact hsome⟩
      rw [hperm.mem_iff]
      have hk : (assocLookup r.routes meth).isSome = true := by
        rw [iResolve] at hsome
        cases h : assocLookup r.routes meth
        · rw [h] at hsome; simp at hsome
        · simp [h]
      exact assocLookup_mem_keys_of_isSome _ _ hk

/-- Witness for the amended C3: `/health` under GET, POST request, debug
logger, iteration order `["GET"]`. -/
theorem method_not_allowed_details_witness :
    (iResolve (iHandle { routes := [], middlewares := [] } (str "GET")
        (str "/health") (traceHandler (str "h"))) (str "POST")
        (str "/health") = none) ∧
    (allowedMethodsFor (iHandle { routes := [], middlewares := [] }
        (str "GET") (str "/health") (traceHandler (str "h"))).routes
        (str "/health") [str "GET"] ≠ []) ∧
    ((iServeHTTP debugLogger [str "GET"] (fun _ => [])
        (iHandle { routes := [], middlewares := [] } (str "GET")
          (str "/health") (traceHandler (str "h")))
        { method := str "POST", path := str "/health", headers := [] }
        (str "T")).writes.map
      (fun w => (w.status,
        (w.body.lookup (str "details")).bind
          (fun d => d.lookup (str "allowed_methods")))) =
      [(405, some (JValue.arr [JValue.s (str "GET")]))]) := by
  refine ⟨rfl, by decide, ?_⟩
  exact (method_not_allowed_details debugLogger [str "GET"] (fun _ => [])
    (iHandle { routes := [], middlewares := [] } (str "GET")
      (str "/health") (traceHandler (str "h")))
    { method := str "POST", path := str "/health", headers := [] }
    (str "T") rfl rfl rfl (by decide) (by decide)).1

/-- C5 counterexample: the gofsen `Context.Error` helper (here at
`Error(500, "boom")` on `GET /x`) writes an error payload whose JSON body
has NO `code`, `timestamp` or `message` key (its keys are `error`, `method`,
`path`, `status`, `time`), although it does carry `error` — so not every
failure written through the Context error helper has the claimed key set. -/
theorem gofsen_context_error_missing_keys :
    ((gofsenErrorBody 500 (str "boom") ⟨str "GET", str "/x"⟩
      (str "T")).lookup (str "code") = none) ∧
    ((gofsenErrorBody 500 (str "boom") ⟨str "GET", str "/x"⟩
      (str "T")).lookup (str "timestamp") = none) ∧
    ((gofsenErrorBody 500 (str "boom") ⟨str "GET", str "/x"⟩
      (str "T")).lookup (str "message") = none) ∧
    (((gofsenErrorBody 500 (str "boom") ⟨str "GET", str "/x"⟩
      (str "T")).lookup (str "error")).isSome = true) :=
  ⟨rfl, rfl, rfl, rfl⟩

/-- C5 amended: every failure written through
`GofsenLogger.SendDetailedError` — the internal router's 404, 405, auth
failures and recovered panics — is a JSON object carrying at least the keys
`error`, `message`, `path`, `method`, `timestamp` and `code` (the `message`
field has `omitempty`, so a nonempty message is assumed; every call site
passes one).  The Context error helpers do not follow this shape: gofsen's
`Context.Error` writes `{error, method, path, status, time}`. -/
theorem send_detailed_error_payload_keys (gl : GofsenLogger) (req : IReq)
    (now : Str) (code : Nat) (msg : Str) (details : JValue)
    (hmsg : msg ≠ []) (k : Str)
    (hk : k ∈ [str "error", str "message", str "path", str "method",
      str "timestamp", str "code"]) :
    ((sendDetailedError gl req now code msg details).body.lookup k).isSome =
      true := by
  have hkeys : k ∈ (errorRespFields req now code msg).map Prod.fst := by
    simp only [errorRespFields, List.map_append, List.map_cons, List.map_nil]
    rw [if_pos hmsg]
    simpa using hk
  unfold sendDetailedError
  by_cases hd : gl.enableDetailedErrors &&
      decide (gl.level.toNat ≤ LogLevel.debug.toNat)
  · rw [if_pos hd]
    apply assocLookup_isSome_of_mem_keys
    rw [List.map_append]
    exact List.mem_append_left _ hkeys
  · rw [if_neg hd]
    exact assocLookup_isSome_of_mem_keys _ _ hkeys

/-- Witness for the amended C5: the default-configuration 404 payload for
`GET /nope` has a `code` field. -/
theorem send_detailed_error_payload_keys_witness :
    ((str "Route non trouvée" : Str) ≠ []) ∧
    (str "code" ∈ [str "error", str "message", str "path", str "method",
      str "timestamp", str "code"]) ∧
    ((sendDetailedError defaultLogger
        { method := str "GET", path := str "/nope", headers := [] }
        (str "T") 404 (str "Route non trouvée")
        (JValue.obj [])).body.lookup (str "code")).isSome = true :=
  ⟨by decide, by decide,
    send_detailed_error_payload_keys defaultLogger
      { method := str "GET", path := str "/nope", headers := [] }
      (str "T") 404 (str "Route non trouvée") (JValue.obj [])
      (by decide) (str "code") (by decide)⟩

/-- C6 counterexample: a handler that panics with `"boom"` behind the
internal `RecoveryMiddleware`, run with the stock logger configuration
(`GetLogger()` returns level Info): exactly one write happens and its status
is 500, but the body has NO `details` field, so `details.panic_message`
does not equal the panic message. -/
theorem recovery_panic_message_counterexample :
    ((wrapMws [recoveryMiddleware defaultLogger
        { method := str "GET", path := str "/p", headers := [] }
        (str "T") (str "stacktext")]
      (panicHandler (str "boom"))) iInitState).writes.map
      (fun w => (w.status, (w.body.lookup (str "details")).isSome)) =
      [(500, false)] := rfl

/-- C6 amended: a handler that panics (before writing) behind a chain of
observational middleware plus the internal `RecoveryMiddleware` produces
exactly one write, of status 500, and — when the logger is in
detailed-diagnostics mode — its `details.panic_message` equals the panic
message; the pending panic is consumed. -/
theorem recovery_panic_message (gl : GofsenLogger) (req : IReq)
    (now stack msg : Str) (gs : List Str)
    (hdet : gl.enableDetailedErrors = true)
    (hdbg : gl.level = LogLevel.debug) :
    (((wrapMws (gs.map traceMw ++ [recoveryMiddleware gl req now stack])
        (panicHandler msg)) iInitState).writes.map
      (fun w => (w.status,
        (w.body.lookup (str "details")).bind
          (fun d => d.lookup (str "panic_message")))) =
      [(500, some (JValue.s msg))]) ∧
    ((wrapMws (gs.map traceMw ++ [recoveryMiddleware gl req now stack])
        (panicHandler msg)) iInitState).panicked = none := by
  have hrun : (wrapMws (gs.map traceMw ++ [recoveryMiddleware gl req now stack])
      (panicHandler msg)) iInitState =
      { writes := [sendDetailedError gl req now 500
          (str "Erreur interne du serveur")
          (JValue.obj [(str "panic_message", JValue.s msg),
            (str "recovery_note",
             JValue.s (str "L'application a récupéré d'une erreur critique")),
            (str "stack_trace", JValue.s stack)])],
        trace := gs, panicked := none } := by
    rw [wrapMws_append, wrapMws_traceMw]
    rfl
  rw [hrun]
  refine ⟨?_, rfl⟩
  unfold sendDetailedError
  rw [if_pos (by rw [hdet, hdbg]; rfl)]
  simp only [List.map_cons, List.map_nil, JValue.lookup]
  rw [assocLookup_errorRespFields_append _ _ _ _ _ _ (by decide)
    (by decide) (by decide) (by decide) (by decide) (by decide)]
  rw [assocLookup, if_pos rfl]
  rfl

/-- Witness for the amended C6: panic `"boom"` behind Recovery with a
debug-mode logger yields one 500 write with `details.panic_message = boom`. -/
theorem recovery_panic_message_witness :
    (debugLogger.enableDetailedErrors = true) ∧
    (debugLogger.level = LogLevel.debug) ∧
    (((wrapMws (([] : List Str).map traceMw ++
        [recoveryMiddleware debugLogger
          { method := str "GET", path := str "/p", headers := [] }
          (str "T") (str "stacktext")])
        (panicHandler (str "boom"))) iInitState).writes.map
      (fun w => (w.status,
        (w.body.lookup (str "details")).bind
          (fun d => d.lookup (str "panic_message")))) =
      [(500, some (JValue.s (str "boom")))]) :=
  ⟨rfl, rfl,
    (recovery_panic_message debugLogger
      { method := str "GET", path := str "/p", headers := [] }
      (str "T") (str "stacktext") (str "boom") [] rfl rfl).1⟩
